import Mathlib

/-!
# Verification of `msgraph/chat.go` (hamilton)

A shallow embedding of the `ChatClient` wrappers (`Create`, `Get`, `List`,
`Update`, `Delete`) and of the consistency predicate built inside `Create`.

Conventions of the embedding

* A Go pointer `*T` is an `Option T`; dereferencing `none` is a run-time panic.
* A Go `error` is an `Option Error`, an error value being identified with its
  message; `fmt.Errorf("ctx: %v", err)` is string concatenation.
* A Go function body is a value of `Run ε α`: the events it emitted, followed by
  either its returned value or the panic that ended it.
* Code that lives outside `chat.go` (the `Chat` declaration, `encoding/json`,
  `odata.Error.Match`, the request executor behind `BaseClient`) is taken as a
  parameter, see `External` and `Executor`.
-/

namespace msgraph

/-! ## Go run-time model -/

/-- A byte slice (`[]byte`). -/
abbrev Bytes := List UInt8

/-- A non-nil Go `error`, identified with the text of `err.Error()`. -/
abbrev Error := String

/-- Run-time panics that the embedded code can raise. -/
inductive Panic where
  | nilDereference
  deriving DecidableEq, Repr

/-- The run of a Go function body: emitted events, then a returned value or a panic. -/
structure Run (ε α : Type) where
  trace : List ε
  outcome : Except Panic α

namespace Run

/-- Normal return without any event. -/
def ret {ε α : Type} (a : α) : Run ε α := ⟨[], .ok a⟩

/-- A panic: the function produces no result. -/
def panic {ε α : Type} (p : Panic) : Run ε α := ⟨[], .error p⟩

/-- Record one event. -/
def emit {ε : Type} (e : ε) : Run ε Unit := ⟨[e], .ok ()⟩

/-- Sequencing: a panic in the first part skips the rest, events accumulate. -/
def andThen {ε α β : Type} (m : Run ε α) (f : α → Run ε β) : Run ε β :=
  match m.outcome with
  | .error p => ⟨m.trace, .error p⟩
  | .ok a => ⟨m.trace ++ (f a).trace, (f a).outcome⟩

/-- Deferred event (`defer`): emitted when the body is left, also by a panic. -/
def deferring {ε α : Type} (e : ε) (body : Run ε α) : Run ε α :=
  ⟨body.trace ++ [e], body.outcome⟩

/-- Pointer dereference `*p`. -/
def deref {ε α : Type} : Option α → Run ε α
  | some a => ret a
  | none => panic .nilDereference

/-- Go short-circuit conjunction `a && b`: `b` is evaluated only when `a` holds. -/
def andAlso {ε : Type} (a : Bool) (b : Run ε Bool) : Run ε Bool :=
  if a then b else ret false

end Run

/-! ## HTTP and OData data -/

/-- The constant `http.StatusOK`. -/
def StatusOK : Int := 200
/-- The constant `http.StatusCreated`. -/
def StatusCreated : Int := 201
/-- The constant `http.StatusNoContent`. -/
def StatusNoContent : Int := 204
/-- The constant `http.StatusForbidden`. -/
def StatusForbidden : Int := 403
/-- The constant `http.StatusNotFound`. -/
def StatusNotFound : Int := 404

/-- The part of `http.Response` the wrappers use. `Body` is the outcome that
`io.ReadAll(resp.Body)` produces (net/http guarantees a non-nil body). -/
structure Response where
  StatusCode : Int
  Body : Except Error Bytes

/-- The structured error of an OData error envelope (`odata.Error`). -/
structure ODataError where
  Code : Option String
  Message : Option String
  deriving DecidableEq, Repr

/-- The parsed OData envelope (`odata.OData`); only `Error` is used here. -/
structure OData where
  Error : Option ODataError
  deriving DecidableEq, Repr

/-- Metadata level of `odata.Query`. -/
inductive Metadata where
  | none
  | minimal
  | full
  deriving DecidableEq, Repr

/-- The constant `odata.MetadataFull`. -/
def MetadataFull : Metadata := .full

/-- The query descriptor `odata.Query`: the metadata level set by the wrappers,
and the remaining options, which are passed through untouched. -/
structure Query where
  Metadata : Metadata
  Top : Int
  Filter : String
  deriving DecidableEq, Repr

/-- The zero value `odata.Query{}`. -/
def Query.zero : Query := { Metadata := .none, Top := 0, Filter := "" }

/-- The resource path `Uri`. -/
structure Uri where
  Entity : String
  deriving DecidableEq, Repr

/-- A parsed JSON value, object members in document order. -/
inductive Json where
  | null
  | bool (b : Bool)
  | number (literal : String)
  | string (s : String)
  | array (elems : List Json)
  | object (members : List (String × Json))

/-- Events inside one call of the request executor. -/
inductive ExecEvent where
  /-- attempt number `n` was sent to the transport -/
  | send (n : Nat)
  /-- `odata.Error.Match` was evaluated -/
  | errorMatch (e : ODataError) (text : String)
  deriving DecidableEq, Repr

/-- The type `ConsistencyFailureFunc`. -/
abbrev ConsistencyFailureFunc := Option Response → Option OData → Run ExecEvent Bool

/-- What lives outside `chat.go`: the `Chat` declaration with its JSON codec
(`encoding/json`), and `odata.Error.Match`. -/
structure External (Chat : Type) where
  /-- the field `chat.ID`, a `*string` -/
  ID : Chat → Option String
  /-- `json.Marshal(chat)` -/
  marshal : Chat → Except Error Bytes
  /-- the syntax pass of `json.Unmarshal`: the body as a JSON value, or a syntax error -/
  scan : Bytes → Except Error Json
  /-- decoding of one JSON value into a fresh `Chat` -/
  decodeChat : Json → Except Error Chat
  /-- the method `(*odata.Error).Match(text)` -/
  errorMatch : ODataError → String → Bool

/-! ## The consistency predicate of `Create` (chat.go, lines 37-44) -/

/-- The phrase matched by the predicate. -/
def rosterPhrase : String := "One or more members cannot be added to the thread roster"

/-- The closure `retryFunc` of `ChatClient.Create`. -/
def retryFunc {Chat : Type} (ext : External Chat) : ConsistencyFailureFunc :=
  fun resp o =>
    Run.andThen
      (Run.andAlso resp.isSome
        (Run.andAlso o.isSome
          (Run.andThen (Run.deref o) fun od => Run.ret od.Error.isSome)))
      fun cond =>
        if cond then
          Run.andThen (Run.deref resp) fun r =>
            if r.StatusCode = StatusForbidden then
              Run.andThen (Run.deref o) fun od =>
              Run.andThen (Run.deref od.Error) fun e =>
              Run.andThen (Run.emit (ExecEvent.errorMatch e rosterPhrase)) fun _ =>
              Run.ret (ext.errorMatch e rosterPhrase)
            else Run.ret false
        else Run.ret false

/-! ## The request executor seen from the wrappers -/

/-- The type `PostHttpRequestInput`, with the fields `Create` sets. -/
structure PostHttpRequestInput where
  Body : Bytes
  ConsistencyFailureFunc : Option ConsistencyFailureFunc
  OData : Query
  ValidStatusCodes : List Int
  Uri : Uri

/-- The type `GetHttpRequestInput`, with the fields `Get` and `List` set. -/
structure GetHttpRequestInput where
  ConsistencyFailureFunc : Option ConsistencyFailureFunc
  OData : Query
  ValidStatusCodes : List Int
  Uri : Uri

/-- The type `PatchHttpRequestInput`, with the fields `Update` sets. -/
structure PatchHttpRequestInput where
  Body : Bytes
  ConsistencyFailureFunc : Option ConsistencyFailureFunc
  ValidStatusCodes : List Int
  Uri : Uri

/-- The type `DeleteHttpRequestInput`, with the fields `Delete` sets. -/
structure DeleteHttpRequestInput where
  ConsistencyFailureFunc : Option ConsistencyFailureFunc
  ValidStatusCodes : List Int
  Uri : Uri

/-- The four values `resp, status, o, err` returned by the request executor. -/
structure ExecutorOutcome where
  resp : Option Response
  status : Int
  odata : Option OData
  err : Option Error

/-- Modelled from the spec: the client configuration `Client` (declared in
client.go): the per-client toggle that disables consistency retries, and the
maximum number of attempts of one logical operation. -/
structure Client where
  DisableRetries : Bool
  MaxAttempts : Nat
  deriving DecidableEq, Repr

/-- The methods `Post`, `Get`, `Patch` and `Delete` of `Client` (client.go):
the request executor, of which the wrappers only see the outcome. -/
structure Executor where
  Post : Client → PostHttpRequestInput → Run ExecEvent ExecutorOutcome
  Get : Client → GetHttpRequestInput → Run ExecEvent ExecutorOutcome
  Patch : Client → PatchHttpRequestInput → Run ExecEvent ExecutorOutcome
  Delete : Client → DeleteHttpRequestInput → Run ExecEvent ExecutorOutcome

/-- Events of one wrapper call. An executor call carries the input it was given
and the events that happened inside the executor. -/
inductive Event where
  | post (input : PostHttpRequestInput) (inner : List ExecEvent)
  | get (input : GetHttpRequestInput) (inner : List ExecEvent)
  | patch (input : PatchHttpRequestInput) (inner : List ExecEvent)
  | delete (input : DeleteHttpRequestInput) (inner : List ExecEvent)
  /-- the call `io.ReadAll(resp.Body)` -/
  | readAll
  /-- the call `json.Unmarshal(respBody, ...)` -/
  | unmarshal
  /-- the deferred call `resp.Body.Close()` -/
  | close

/-- Whether an event is a call of the request executor. -/
def Event.isExecutorCall : Event → Bool
  | .post _ _ => true
  | .get _ _ => true
  | .patch _ _ => true
  | .delete _ _ => true
  | _ => false

/-- Number of executor calls in a trace. -/
def executorCalls (tr : List Event) : Nat := tr.countP Event.isExecutorCall

/-- The call `c.BaseClient.Post(ctx, input)`. -/
def callPost (x : Executor) (c : Client) (input : PostHttpRequestInput) :
    Run Event ExecutorOutcome :=
  ⟨[Event.post input (x.Post c input).trace], (x.Post c input).outcome⟩

/-- The call `c.BaseClient.Get(ctx, input)`. -/
def callGet (x : Executor) (c : Client) (input : GetHttpRequestInput) :
    Run Event ExecutorOutcome :=
  ⟨[Event.get input (x.Get c input).trace], (x.Get c input).outcome⟩

/-- The call `c.BaseClient.Patch(ctx, input)`. -/
def callPatch (x : Executor) (c : Client) (input : PatchHttpRequestInput) :
    Run Event ExecutorOutcome :=
  ⟨[Event.patch input (x.Patch c input).trace], (x.Patch c input).outcome⟩

/-- The call `c.BaseClient.Delete(ctx, input)`. -/
def callDelete (x : Executor) (c : Client) (input : DeleteHttpRequestInput) :
    Run Event ExecutorOutcome :=
  ⟨[Event.delete input (x.Delete c input).trace], (x.Delete c input).outcome⟩

/-- Modelled from the spec: the predicate `RetryOn404ConsistencyFailureFunc`
(declared in client.go), the retry-on-missing-resource predicate, which returns
true when the status is "not found". -/
def RetryOn404ConsistencyFailureFunc : ConsistencyFailureFunc :=
  fun resp _ =>
    Run.ret (match resp with
      | some r => decide (r.StatusCode = StatusNotFound)
      | none => false)

/-! ## JSON decoding done by the wrappers -/

/-- The call `json.Unmarshal(respBody, &chat)` for a zero `Chat`. -/
def unmarshalChat {Chat : Type} (ext : External Chat) (body : Bytes) : Except Error Chat :=
  match ext.scan body with
  | .error e => .error e
  | .ok j => ext.decodeChat j

/-- How encoding/json matches an object key with the struct field tagged
`json:"value"`: an exact match, or else a match ignoring letter case. -/
def matchesValueTag (key : String) : Bool :=
  decide (key.data.map Char.toLower = "value".data)

/-- Decoding of the elements of a JSON array into a `[]Chat`, in order. -/
def decodeElems {Chat : Type} (ext : External Chat) : List Json → Except Error (List Chat)
  | [] => .ok []
  | j :: js =>
    match ext.decodeChat j with
    | .error e => .error e
    | .ok c =>
      match decodeElems ext js with
      | .error e => .error e
      | .ok cs => .ok (c :: cs)

/-- Decoding of a JSON value into the field `Value []Chat`: `null` gives the nil
slice, an array is decoded element by element, anything else is a type error. -/
def decodeValueField {Chat : Type} (ext : External Chat) : Json → Except Error (List Chat)
  | .null => .ok []
  | .array elems => decodeElems ext elems
  | _ => .error "json: cannot unmarshal into Go struct field .value of type []msgraph.Chat"

/-- Decoding of the members of a JSON object into `struct { Value []Chat }`,
in document order: a member whose key matches the tag is decoded into `Value`,
the slice being reset first (as documented for `json.Unmarshal`); any other
member is skipped without being decoded. With several matching members the
last one wins; the theorems below only rely on objects with at most one. -/
def decodeMembers {Chat : Type} (ext : External Chat) :
    List (String × Json) → List Chat → Except Error (List Chat)
  | [], acc => .ok acc
  | (k, v) :: rest, acc =>
    if matchesValueTag k then
      match decodeValueField ext v with
      | .error e => .error e
      | .ok cs => decodeMembers ext rest cs
    else decodeMembers ext rest acc

/-- The call `json.Unmarshal(respBody, &chatList)` for the zero value of
`struct { Value []Chat }` (chat.go, lines 129-132); the result is the field
`chatList.Value`. A top-level `null` leaves the struct untouched, a top-level
value that is neither `null` nor an object is a type error. -/
def unmarshalChatList {Chat : Type} (ext : External Chat) (body : Bytes) :
    Except Error (List Chat) :=
  match ext.scan body with
  | .error e => .error e
  | .ok j =>
    match j with
    | .null => .ok []
    | .object members => decodeMembers ext members []
    | _ => .error "json: cannot unmarshal into Go value of type struct"

/-! ## The wrappers of `ChatClient` -/

/-- The type `ChatClient`. -/
structure ChatClient where
  BaseClient : Client
  deriving DecidableEq, Repr

/-- The `PostHttpRequestInput` literal of `Create` (chat.go, lines 46-56). -/
def createInput {Chat : Type} (ext : External Chat) (body : Bytes) : PostHttpRequestInput :=
  { Body := body
    ConsistencyFailureFunc := some (retryFunc ext)
    OData := { Query.zero with Metadata := MetadataFull }
    ValidStatusCodes := [StatusCreated]
    Uri := { Entity := "/chats" } }

/-- The `GetHttpRequestInput` literal of `Get` (chat.go, lines 78-87), after
the assignment `query.Metadata = odata.MetadataFull`. -/
def getInput (id : String) (query : Query) : GetHttpRequestInput :=
  { ConsistencyFailureFunc := some RetryOn404ConsistencyFailureFunc
    OData := { query with Metadata := MetadataFull }
    ValidStatusCodes := [StatusOK]
    Uri := { Entity := "/chats/" ++ id } }

/-- The `GetHttpRequestInput` literal of `List` (chat.go, lines 109-118). -/
def listInput (userID : String) (query : Query) : GetHttpRequestInput :=
  { ConsistencyFailureFunc := some RetryOn404ConsistencyFailureFunc
    OData := { query with Metadata := MetadataFull }
    ValidStatusCodes := [StatusOK]
    Uri := { Entity := "/users/" ++ userID ++ "/chats" } }

/-- The `PatchHttpRequestInput` literal of `Update` (chat.go, lines 147-154),
`id` being the value of `*chat.ID`. -/
def updateInput (body : Bytes) (id : String) : PatchHttpRequestInput :=
  { Body := body
    ConsistencyFailureFunc := some RetryOn404ConsistencyFailureFunc
    ValidStatusCodes := [StatusNoContent]
    Uri := { Entity := "/chats/" ++ id } }

/-- The `DeleteHttpRequestInput` literal of `Delete` (chat.go, lines 164-170). -/
def deleteInput (chatId : String) : DeleteHttpRequestInput :=
  { ConsistencyFailureFunc := some RetryOn404ConsistencyFailureFunc
    ValidStatusCodes := [StatusNoContent]
    Uri := { Entity := "/chats/" ++ chatId } }

/-- The method `ChatClient.Create` (chat.go, lines 31-74). -/
def ChatClient.Create {Chat : Type} (x : Executor) (ext : External Chat) (c : ChatClient)
    (chat : Chat) : Run Event (Option Chat × Int × Option Error) :=
  match ext.marshal chat with
  | .error err => Run.ret (none, 0, some ("json.Marshal(): " ++ err))
  | .ok body =>
    Run.andThen
      (callPost x c.BaseClient (createInput ext body))
      fun out =>
        match out.err with
        | some err => Run.ret (none, out.status, some ("ChatsClient.BaseClient.Post(): " ++ err))
        | none =>
          Run.andThen (Run.deref out.resp) fun resp =>
          Run.deferring Event.close
            (Run.andThen (Run.emit Event.readAll) fun _ =>
              match resp.Body with
              | .error err => Run.ret (none, out.status, some ("io.ReadAll(): " ++ err))
              | .ok respBody =>
                Run.andThen (Run.emit Event.unmarshal) fun _ =>
                  match unmarshalChat ext respBody with
                  | .error err => Run.ret (none, out.status, some ("json.Unmarshal(): " ++ err))
                  | .ok newChat => Run.ret (some newChat, out.status, none))

/-- The method `ChatClient.Get` (chat.go, lines 77-104). -/
def ChatClient.Get {Chat : Type} (x : Executor) (ext : External Chat) (c : ChatClient)
    (id : String) (query : Query) : Run Event (Option Chat × Int × Option Error) :=
  Run.andThen
    (callGet x c.BaseClient (getInput id query))
    fun out =>
      match out.err with
      | some err => Run.ret (none, out.status, some ("ChatsClient.BaseClient.Get(): " ++ err))
      | none =>
        Run.andThen (Run.deref out.resp) fun resp =>
        Run.deferring Event.close
          (Run.andThen (Run.emit Event.readAll) fun _ =>
            match resp.Body with
            | .error err => Run.ret (none, out.status, some ("io.ReadAll(): " ++ err))
            | .ok respBody =>
              Run.andThen (Run.emit Event.unmarshal) fun _ =>
                match unmarshalChat ext respBody with
                | .error err => Run.ret (none, out.status, some ("json.Unmarshal(): " ++ err))
                | .ok chat => Run.ret (some chat, out.status, none))

/-- The method `ChatClient.List` (chat.go, lines 108-138). The result is the
pointer `&chatList.Value`, which is never nil. -/
def ChatClient.List {Chat : Type} (x : Executor) (ext : External Chat) (c : ChatClient)
    (userID : String) (query : Query) : Run Event (Option (List Chat) × Int × Option Error) :=
  Run.andThen
    (callGet x c.BaseClient (listInput userID query))
    fun out =>
      match out.err with
      | some err => Run.ret (none, out.status, some ("ChatsClient.BaseClient.Get(): " ++ err))
      | none =>
        Run.andThen (Run.deref out.resp) fun resp =>
        Run.deferring Event.close
          (Run.andThen (Run.emit Event.readAll) fun _ =>
            match resp.Body with
            | .error err => Run.ret (none, out.status, some ("io.ReadAll(): " ++ err))
            | .ok respBody =>
              Run.andThen (Run.emit Event.unmarshal) fun _ =>
                match unmarshalChatList ext respBody with
                | .error err => Run.ret (none, out.status, some ("json.Unmarshal(): " ++ err))
                | .ok value => Run.ret (some value, out.status, none))

/-- The method `ChatClient.Update` (chat.go, lines 141-160). The argument
`*chat.ID` is evaluated before `Patch` is called. -/
def ChatClient.Update {Chat : Type} (x : Executor) (ext : External Chat) (c : ChatClient)
    (chat : Chat) : Run Event (Int × Option Error) :=
  match ext.marshal chat with
  | .error err => Run.ret (0, some ("json.Marshal(): " ++ err))
  | .ok body =>
    Run.andThen (Run.deref (ext.ID chat)) fun id =>
    Run.andThen
      (callPatch x c.BaseClient (updateInput body id))
      fun out =>
        match out.err with
        | some err => Run.ret (out.status, some ("ChatsClient.BaseClient.Patch(): " ++ err))
        | none => Run.ret (out.status, none)

/-- The method `ChatClient.Delete` (chat.go, lines 163-176). -/
def ChatClient.Delete (x : Executor) (c : ChatClient) (chatId : String) :
    Run Event (Int × Option Error) :=
  Run.andThen
    (callDelete x c.BaseClient (deleteInput chatId))
    fun out =>
      match out.err with
      | some err => Run.ret (out.status, some ("ChatsClient.BaseClient.Delete(): " ++ err))
      | none => Run.ret (out.status, none)

/-! ## The request executor of the specification (section 4.2) -/

/-- Modelled from the spec: what the transport answers to one attempt (section
4.2, steps 2 and 3; client.go is missing): a transport-level failure, or a
response together with its structured error envelope, decoded best-effort. -/
inductive TransportResult where
  | failure (err : Error)
  | received (resp : Response) (o : Option OData)

/-- Modelled from the spec: a response sequence of the transport collaborator,
the answer to attempt number `n`. -/
abbrev Transport := Nat → TransportResult

/-- Modelled from the spec: the Request Descriptor of section 3 (declared in
client.go as the `...HttpRequestInput` types): resource path, optional body,
query descriptor, accepted status codes, optional consistency predicate. -/
structure RequestDescriptor where
  path : String
  body : Option Bytes
  query : Query
  accepted : List Int
  predicate : Option ConsistencyFailureFunc

/-- Modelled from the spec: the terminal outcome of section 4.2, steps 4 and 6
(client.go is missing): success or failure per membership of the status in the
accepted set, the status and the decoded structured error being returned in
both cases. -/
def terminalOutcome (d : RequestDescriptor) (resp : Response) (o : Option OData) :
    ExecutorOutcome :=
  if resp.StatusCode ∈ d.accepted then
    { resp := some resp, status := resp.StatusCode, odata := o, err := none }
  else
    { resp := some resp, status := resp.StatusCode, odata := o,
      err := some ("unexpected status " ++ toString resp.StatusCode) }

/-- Modelled from the spec: evaluation of the optional consistency predicate,
which defaults to "never retry" when absent (section 4.1). -/
def predicateFires (d : RequestDescriptor) (resp : Response) (o : Option OData) :
    Run ExecEvent Bool :=
  match d.predicate with
  | none => Run.ret false
  | some p => p (some resp) o

/-- Modelled from the spec: the retry loop of the Request Executor (section 4.2,
steps 1 to 6; client.go is missing). `budget` is the number of further attempts
still allowed, `n` the number of the attempt being made. A transport failure is
terminal; a response on which the predicate fires is retried unless retries are
disabled on the client or the attempts are exhausted; every other response is
terminal. The backoff wait is not modelled. -/
def attemptLoop (c : Client) (t : Transport) (d : RequestDescriptor) :
    Nat → Nat → Run ExecEvent ExecutorOutcome
  | 0, n =>
    Run.andThen (Run.emit (ExecEvent.send n)) fun _ =>
      match t n with
      | .failure err => Run.ret { resp := none, status := 0, odata := none, err := some err }
      | .received resp o =>
        Run.andThen (predicateFires d resp o) fun _ => Run.ret (terminalOutcome d resp o)
  | budget + 1, n =>
    Run.andThen (Run.emit (ExecEvent.send n)) fun _ =>
      match t n with
      | .failure err => Run.ret { resp := none, status := 0, odata := none, err := some err }
      | .received resp o =>
        Run.andThen (predicateFires d resp o) fun fires =>
          if fires && !c.DisableRetries then attemptLoop c t d budget (n + 1)
          else Run.ret (terminalOutcome d resp o)

/-- Modelled from the spec: one logical operation of the Request Executor
(client.go is missing), at most `c.MaxAttempts` attempts and at least one. -/
def performRequest (c : Client) (t : Transport) (d : RequestDescriptor) :
    Run ExecEvent ExecutorOutcome :=
  attemptLoop c t d (c.MaxAttempts - 1) 0

/-- Modelled from the spec: the methods `Post`, `Get`, `Patch` and `Delete` of
`Client` (client.go is missing), each building the Request Descriptor from its
input and running the Request Executor against the transport `t`. -/
def specExecutor (t : Transport) : Executor where
  Post c input :=
    performRequest c t
      { path := input.Uri.Entity, body := some input.Body, query := input.OData,
        accepted := input.ValidStatusCodes, predicate := input.ConsistencyFailureFunc }
  Get c input :=
    performRequest c t
      { path := input.Uri.Entity, body := none, query := input.OData,
        accepted := input.ValidStatusCodes, predicate := input.ConsistencyFailureFunc }
  Patch c input :=
    performRequest c t
      { path := input.Uri.Entity, body := some input.Body, query := Query.zero,
        accepted := input.ValidStatusCodes, predicate := input.ConsistencyFailureFunc }
  Delete c input :=
    performRequest c t
      { path := input.Uri.Entity, body := none, query := Query.zero,
        accepted := input.ValidStatusCodes, predicate := input.ConsistencyFailureFunc }

/-! ## Concrete data used to instantiate the theorems -/

/-- A small chat entity: an identifier and a topic, both optional. -/
structure SampleChat where
  ID : Option String
  Topic : Option String
  deriving DecidableEq, Repr

/-- The string held by a JSON member, if it is a string. -/
def Json.asString : Json → Option String
  | .string s => some s
  | _ => none

/-- The value of the first member named `key`. -/
def lookupMember (key : String) : List (String × Json) → Option Json
  | [] => none
  | (k, v) :: rest => if k = key then some v else lookupMember key rest

/-- A sample environment: `odata.Error.Match` is equality of the message with
the text, `Chat` is `SampleChat`, every chat serializes to the two bytes of an
empty JSON object, every body scans to the same JSON value `doc`, and a chat is
decoded from the members `id` and `topic` of a JSON object. -/
def sampleExt (doc : Json) : External SampleChat where
  ID := fun c => c.ID
  marshal := fun _ => .ok [123, 125]
  scan := fun _ => .ok doc
  decodeChat := fun j =>
    match j with
    | .null => .ok { ID := none, Topic := none }
    | .object members =>
      .ok { ID := (lookupMember "id" members).bind Json.asString,
            Topic := (lookupMember "topic" members).bind Json.asString }
    | _ => .error "json: cannot unmarshal into Go value of type msgraph.Chat"
  errorMatch := fun e text => decide (e.Message = some text)

/-- An executor that answers every call with the same outcome. -/
def constExecutor (out : ExecutorOutcome) : Executor where
  Post := fun _ _ => Run.ret out
  Get := fun _ _ => Run.ret out
  Patch := fun _ _ => Run.ret out
  Delete := fun _ _ => Run.ret out

/-- A client with retries enabled and four attempts. -/
def sampleClient : ChatClient := { BaseClient := { DisableRetries := false, MaxAttempts := 4 } }

/-- An executor failure: status 403 with an error and no response. -/
def sampleFailure : ExecutorOutcome :=
  { resp := none, status := 403, odata := none, err := some "forbidden" }

/-- A chat with an identifier. -/
def sampleChat : SampleChat := { ID := some "19:a", Topic := some "standup" }

/-- A chat without an identifier. -/
def chatWithoutID : SampleChat := { ID := none, Topic := some "standup" }

/-- The JSON document of `sampleChat`. -/
def sampleDoc : Json :=
  .object [("id", .string "19:a"), ("topic", .string "standup")]

/-- A successful executor outcome with status `code` and a readable body. -/
def sampleSuccess (code : Int) : ExecutorOutcome :=
  { resp := some { StatusCode := code, Body := .ok [123, 125] }, status := code,
    odata := none, err := none }

/-- A response with status 200 whose body cannot be read. -/
def unreadableResponse : Response := { StatusCode := 200, Body := .error "unexpected EOF" }

/-- A successful executor outcome whose body cannot be read. -/
def sampleUnreadable : ExecutorOutcome :=
  { resp := some unreadableResponse, status := 200, odata := none, err := none }

/-- A response with status 200 and a readable body. -/
def readableResponse : Response := { StatusCode := 200, Body := .ok [53] }

/-- A successful executor outcome with a readable body. -/
def sampleReadable : ExecutorOutcome :=
  { resp := some readableResponse, status := 200, odata := none, err := none }

/-- A transport that answers every attempt with 404 and no structured error. -/
def alwaysNotFound : Transport :=
  fun _ => .received { StatusCode := 404, Body := .ok [] } none

/-- A client with retries disabled. -/
def retriesDisabled : Client := { DisableRetries := true, MaxAttempts := 4 }

/-- The members of an envelope whose only member is named `VALUE`. -/
def upperCaseMembers : List (String × Json) := [("VALUE", .array [sampleDoc])]

/-- The members of a regular envelope: an OData context, then `value`. -/
def envelopeMembers : List (String × Json) :=
  [("@odata.context", .string "https://graph.microsoft.com/v1.0/$metadata#chats"),
   ("value", .array [sampleDoc, .null])]

/-! ## Theorems -/

/-- C1: the predicate built in `Create` never panics and returns true exactly
when the response is present with status 403 and the structured error is
present and matches the roster phrase; on a present response and a present
error its value is `StatusCode = 403 && Match(phrase)`, so it is false for a
403 with unrelated text and false for any other status even if the text matches. -/
theorem retryFunc_true_iff {Chat : Type} (ext : External Chat) :
    (∀ resp o, ∃ b, (retryFunc ext resp o).outcome = .ok b) ∧
    (∀ resp o, (retryFunc ext resp o).outcome = .ok true ↔
      ∃ r od e, resp = some r ∧ o = some od ∧ od.Error = some e ∧
        r.StatusCode = StatusForbidden ∧ ext.errorMatch e rosterPhrase = true) ∧
    (∀ r e, (retryFunc ext (some r) (some { Error := some e })).outcome =
      .ok (decide (r.StatusCode = StatusForbidden) && ext.errorMatch e rosterPhrase)) := by
  refine ⟨?_, ?_, ?_⟩
  · intro resp o
    rcases resp with _ | r <;> rcases o with _ | ⟨_ | e⟩ <;>
      simp [retryFunc, Run.andThen, Run.andAlso, Run.deref, Run.ret, Run.panic, Run.emit]
    split <;> simp
  · intro resp o
    rcases resp with _ | r <;> rcases o with _ | ⟨_ | e⟩ <;>
      simp [retryFunc, Run.andThen, Run.andAlso, Run.deref, Run.ret, Run.panic, Run.emit]
    split <;> simp [*]
  · intro r e
    simp [retryFunc, Run.andThen, Run.andAlso, Run.deref, Run.ret, Run.panic, Run.emit]
    split <;> simp [*]

/-- C2: when the response is nil, or the OData value is nil, or its structured
error is nil, the predicate returns false without a panic and without
evaluating `Match` (no event at all), whatever the status code is. -/
theorem retryFunc_absent_inputs {Chat : Type} (ext : External Chat)
    (resp : Option Response) (o : Option OData)
    (h : resp = none ∨ o = none ∨ ∃ od, o = some od ∧ od.Error = none) :
    retryFunc ext resp o = { trace := [], outcome := .ok false } := by
  rcases resp with _ | r <;> rcases o with _ | ⟨_ | e⟩ <;>
    simp_all [retryFunc, Run.andThen, Run.andAlso, Run.deref, Run.ret, Run.panic, Run.emit]

/-- Witness of C2: a 403 response whose OData value carries no structured error. -/
theorem retryFunc_absent_inputs_witness :
    retryFunc (sampleExt Json.null)
        (some { StatusCode := 403, Body := .ok [] }) (some { Error := none }) =
      { trace := [], outcome := .ok false } :=
  retryFunc_absent_inputs (sampleExt Json.null)
    (some { StatusCode := 403, Body := .ok [] }) (some { Error := none })
    (Or.inr (Or.inr ⟨{ Error := none }, rfl, rfl⟩))

/-- C3: when the request executor returns status `s` and a non-nil error `e`,
each of `Create`, `Get`, `List`, `Update` and `Delete` returns the status `s`
unchanged, the error `e` preceded by the name of the operation, and no entity;
the only event of the wrapper is the executor call: the response body is
neither read nor decoded. -/
theorem wrappers_propagate_executor_error {Chat : Type} (x : Executor) (ext : External Chat)
    (c : ChatClient) (tr : List ExecEvent) (out : ExecutorOutcome) (e : Error)
    (he : out.err = some e) :
    (∀ chat body, ext.marshal chat = .ok body →
      x.Post c.BaseClient (createInput ext body) = ⟨tr, .ok out⟩ →
      ChatClient.Create x ext c chat =
        ⟨[Event.post (createInput ext body) tr],
          .ok (none, out.status, some ("ChatsClient.BaseClient.Post(): " ++ e))⟩) ∧
    (∀ id query, x.Get c.BaseClient (getInput id query) = ⟨tr, .ok out⟩ →
      ChatClient.Get x ext c id query =
        ⟨[Event.get (getInput id query) tr],
          .ok (none, out.status, some ("ChatsClient.BaseClient.Get(): " ++ e))⟩) ∧
    (∀ userID query, x.Get c.BaseClient (listInput userID query) = ⟨tr, .ok out⟩ →
      ChatClient.List x ext c userID query =
        ⟨[Event.get (listInput userID query) tr],
          .ok (none, out.status, some ("ChatsClient.BaseClient.Get(): " ++ e))⟩) ∧
    (∀ chat body id, ext.marshal chat = .ok body → ext.ID chat = some id →
      x.Patch c.BaseClient (updateInput body id) = ⟨tr, .ok out⟩ →
      ChatClient.Update x ext c chat =
        ⟨[Event.patch (updateInput body id) tr],
          .ok (out.status, some ("ChatsClient.BaseClient.Patch(): " ++ e))⟩) ∧
    (∀ chatId, x.Delete c.BaseClient (deleteInput chatId) = ⟨tr, .ok out⟩ →
      ChatClient.Delete x c chatId =
        ⟨[Event.delete (deleteInput chatId) tr],
          .ok (out.status, some ("ChatsClient.BaseClient.Delete(): " ++ e))⟩) := by
  refine ⟨?_, ?_, ?_, ?_, ?_⟩
  · intro chat body hm hx
    simp [ChatClient.Create, hm, callPost, hx, Run.andThen, Run.ret, he]
  · intro id query hx
    simp [ChatClient.Get, callGet, hx, Run.andThen, Run.ret, he]
  · intro userID query hx
    simp [ChatClient.List, callGet, hx, Run.andThen, Run.ret, he]
  · intro chat body id hm hid hx
    simp [ChatClient.Update, hm, hid, callPatch, hx, Run.andThen, Run.ret, Run.deref, he]
  · intro chatId hx
    simp [ChatClient.Delete, callDelete, hx, Run.andThen, Run.ret, he]

/-- Witness of C3: an executor that fails with status 403 and error "forbidden". -/
theorem wrappers_propagate_executor_error_witness :
    ChatClient.Create (constExecutor sampleFailure) (sampleExt Json.null) sampleClient
        sampleChat =
      ⟨[Event.post (createInput (sampleExt Json.null) [123, 125]) []],
        .ok (none, 403, some "ChatsClient.BaseClient.Post(): forbidden")⟩ ∧
    ChatClient.Update (constExecutor sampleFailure) (sampleExt Json.null) sampleClient
        sampleChat =
      ⟨[Event.patch (updateInput [123, 125] "19:a") []],
        .ok (403, some "ChatsClient.BaseClient.Patch(): forbidden")⟩ ∧
    ChatClient.Delete (constExecutor sampleFailure) sampleClient "19:a" =
      ⟨[Event.delete (deleteInput "19:a") []],
        .ok (403, some "ChatsClient.BaseClient.Delete(): forbidden")⟩ :=
  have h := wrappers_propagate_executor_error (constExecutor sampleFailure)
    (sampleExt Json.null) sampleClient [] sampleFailure "forbidden" rfl
  ⟨h.1 sampleChat [123, 125] rfl rfl, h.2.2.2.1 sampleChat [123, 125] "19:a" rfl rfl rfl,
    h.2.2.2.2 "19:a" rfl⟩

/-- What a returned result of `Create` looks like: the entity is present exactly
when the error is nil, and a nil error comes with the status of the executor. -/
theorem Create_result {Chat : Type} (x : Executor) (ext : External Chat) (c : ChatClient)
    (chat : Chat) (r : Option Chat × Int × Option Error)
    (h : (ChatClient.Create x ext c chat).outcome = .ok r) :
    (r.1.isSome = true ↔ r.2.2 = none) ∧
    (r.2.2 = none → ∃ body out, ext.marshal chat = .ok body ∧
      (x.Post c.BaseClient (createInput ext body)).outcome = .ok out ∧ r.2.1 = out.status) := by
  unfold ChatClient.Create at h
  cases hm : ext.marshal chat with
  | error e =>
    simp [hm, Run.ret] at h
    subst h
    simp
  | ok body =>
    simp only [hm] at h
    rcases hx : x.Post c.BaseClient (createInput ext body) with ⟨tr, oc⟩
    rcases oc with p | ⟨resp, status, od, err⟩
    · simp [callPost, hx, Run.andThen] at h
    · rcases err with _ | e <;> rcases resp with _ | ⟨code, rb⟩
      · simp [callPost, hx, Run.andThen, Run.deref, Run.panic] at h
      · rcases rb with e | b
        · simp [callPost, hx, Run.andThen, Run.deref, Run.ret, Run.deferring, Run.emit] at h
          subst h
          simp
        · cases hu : unmarshalChat ext b <;>
            simp [callPost, hx, Run.andThen, Run.deref, Run.ret, Run.deferring, Run.emit, hu] at h <;>
            subst h <;> simp [hx]
      · simp [callPost, hx, Run.andThen, Run.ret] at h
        subst h
        simp
      · simp [callPost, hx, Run.andThen, Run.ret] at h
        subst h
        simp

/-- What a returned result of `Get` looks like. -/
theorem Get_result {Chat : Type} (x : Executor) (ext : External Chat) (c : ChatClient)
    (id : String) (query : Query) (r : Option Chat × Int × Option Error)
    (h : (ChatClient.Get x ext c id query).outcome = .ok r) :
    (r.1.isSome = true ↔ r.2.2 = none) ∧
    (r.2.2 = none → ∃ out,
      (x.Get c.BaseClient (getInput id query)).outcome = .ok out ∧ r.2.1 = out.status) := by
  unfold ChatClient.Get at h
  rcases hx : x.Get c.BaseClient (getInput id query) with ⟨tr, oc⟩
  rcases oc with p | ⟨resp, status, od, err⟩
  · simp [callGet, hx, Run.andThen] at h
  · rcases err with _ | e <;> rcases resp with _ | ⟨code, rb⟩
    · simp [callGet, hx, Run.andThen, Run.deref, Run.panic] at h
    · rcases rb with e | b
      · simp [callGet, hx, Run.andThen, Run.deref, Run.ret, Run.deferring, Run.emit] at h
        subst h
        simp
      · cases hu : unmarshalChat ext b <;>
          simp [callGet, hx, Run.andThen, Run.deref, Run.ret, Run.deferring, Run.emit, hu] at h <;>
          subst h <;> simp [hx]
    · simp [callGet, hx, Run.andThen, Run.ret] at h
      subst h
      simp
    · simp [callGet, hx, Run.andThen, Run.ret] at h
      subst h
      simp

/-- What a returned result of `List` looks like. -/
theorem List_result {Chat : Type} (x : Executor) (ext : External Chat) (c : ChatClient)
    (userID : String) (query : Query) (r : Option (List Chat) × Int × Option Error)
    (h : (ChatClient.List x ext c userID query).outcome = .ok r) :
    (r.1.isSome = true ↔ r.2.2 = none) ∧
    (r.2.2 = none → ∃ out,
      (x.Get c.BaseClient (listInput userID query)).outcome = .ok out ∧ r.2.1 = out.status) := by
  unfold ChatClient.List at h
  rcases hx : x.Get c.BaseClient (listInput userID query) with ⟨tr, oc⟩
  rcases oc with p | ⟨resp, status, od, err⟩
  · simp [callGet, hx, Run.andThen] at h
  · rcases err with _ | e <;> rcases resp with _ | ⟨code, rb⟩
    · simp [callGet, hx, Run.andThen, Run.deref, Run.panic] at h
    · rcases rb with e | b
      · simp [callGet, hx, Run.andThen, Run.deref, Run.ret, Run.deferring, Run.emit] at h
        subst h
        simp
      · cases hu : unmarshalChatList ext b <;>
          simp [callGet, hx, Run.andThen, Run.deref, Run.ret, Run.deferring, Run.emit, hu] at h <;>
          subst h <;> simp [hx]
    · simp [callGet, hx, Run.andThen, Run.ret] at h
      subst h
      simp
    · simp [callGet, hx, Run.andThen, Run.ret] at h
      subst h
      simp

/-- The wrapper `Create` returns (it does not panic) as soon as the executor
returns an outcome that carries a response whenever its error is nil. -/
theorem Create_returns {Chat : Type} (x : Executor) (ext : External Chat) (c : ChatClient)
    (chat : Chat)
    (hx : ∀ body, ext.marshal chat = .ok body → ∃ out,
      (x.Post c.BaseClient (createInput ext body)).outcome = .ok out ∧
        (out.err = none → out.resp.isSome = true)) :
    ∃ r, (ChatClient.Create x ext c chat).outcome = .ok r := by
  unfold ChatClient.Create
  cases hm : ext.marshal chat with
  | error e => simp [Run.ret]
  | ok body =>
    obtain ⟨out, ho, hr⟩ := hx body hm
    rcases out with ⟨resp, status, od, err⟩
    rcases err with _ | e
    · rcases resp with _ | ⟨code, rb⟩
      · simp at hr
      · rcases rb with e | b
        · simp [callPost, ho, Run.andThen, Run.deref, Run.ret, Run.deferring, Run.emit]
        · cases hu : unmarshalChat ext b <;>
            simp [callPost, ho, Run.andThen, Run.deref, Run.ret, Run.deferring, Run.emit, hu]
    · simp [callPost, ho, Run.andThen, Run.ret]

/-- The wrapper `Get` returns under the same condition on the executor. -/
theorem Get_returns {Chat : Type} (x : Executor) (ext : External Chat) (c : ChatClient)
    (id : String) (query : Query)
    (hx : ∃ out, (x.Get c.BaseClient (getInput id query)).outcome = .ok out ∧
      (out.err = none → out.resp.isSome = true)) :
    ∃ r, (ChatClient.Get x ext c id query).outcome = .ok r := by
  unfold ChatClient.Get
  obtain ⟨out, ho, hr⟩ := hx
  rcases out with ⟨resp, status, od, err⟩
  rcases err with _ | e
  · rcases resp with _ | ⟨code, rb⟩
    · simp at hr
    · rcases rb with e | b
      · simp [callGet, ho, Run.andThen, Run.deref, Run.ret, Run.deferring, Run.emit]
      · cases hu : unmarshalChat ext b <;>
          simp [callGet, ho, Run.andThen, Run.deref, Run.ret, Run.deferring, Run.emit, hu]
  · simp [callGet, ho, Run.andThen, Run.ret]

/-- The wrapper `List` returns under the same condition on the executor. -/
theorem List_returns {Chat : Type} (x : Executor) (ext : External Chat) (c : ChatClient)
    (userID : String) (query : Query)
    (hx : ∃ out, (x.Get c.BaseClient (listInput userID query)).outcome = .ok out ∧
      (out.err = none → out.resp.isSome = true)) :
    ∃ r, (ChatClient.List x ext c userID query).outcome = .ok r := by
  unfold ChatClient.List
  obtain ⟨out, ho, hr⟩ := hx
  rcases out with ⟨resp, status, od, err⟩
  rcases err with _ | e
  · rcases resp with _ | ⟨code, rb⟩
    · simp at hr
    · rcases rb with e | b
      · simp [callGet, ho, Run.andThen, Run.deref, Run.ret, Run.deferring, Run.emit]
      · cases hu : unmarshalChatList ext b <;>
          simp [callGet, ho, Run.andThen, Run.deref, Run.ret, Run.deferring, Run.emit, hu]
  · simp [callGet, ho, Run.andThen, Run.ret]

/-- C5: for `Create`, `Get` and `List`, every executor outcome and every
response body: a returned result has its entity present exactly when its error
is nil (for `List` the collection pointer is non-nil exactly then), and a nil
error comes with the status the executor reported. The wrappers do return a
result whenever the executor returns an outcome that carries a response when
its error is nil. -/
theorem entity_present_iff_error_nil {Chat : Type} (x : Executor) (ext : External Chat)
    (c : ChatClient) :
    (∀ chat,
      (∀ r, (ChatClient.Create x ext c chat).outcome = .ok r →
        (r.1.isSome = true ↔ r.2.2 = none) ∧
        (r.2.2 = none → ∃ body out, ext.marshal chat = .ok body ∧
          (x.Post c.BaseClient (createInput ext body)).outcome = .ok out ∧
          r.2.1 = out.status)) ∧
      ((∀ body, ext.marshal chat = .ok body → ∃ out,
          (x.Post c.BaseClient (createInput ext body)).outcome = .ok out ∧
            (out.err = none → out.resp.isSome = true)) →
        ∃ r, (ChatClient.Create x ext c chat).outcome = .ok r)) ∧
    (∀ id query,
      (∀ r, (ChatClient.Get x ext c id query).outcome = .ok r →
        (r.1.isSome = true ↔ r.2.2 = none) ∧
        (r.2.2 = none → ∃ out,
          (x.Get c.BaseClient (getInput id query)).outcome = .ok out ∧ r.2.1 = out.status)) ∧
      ((∃ out, (x.Get c.BaseClient (getInput id query)).outcome = .ok out ∧
            (out.err = none → out.resp.isSome = true)) →
        ∃ r, (ChatClient.Get x ext c id query).outcome = .ok r)) ∧
    (∀ userID query,
      (∀ r, (ChatClient.List x ext c userID query).outcome = .ok r →
        (r.1.isSome = true ↔ r.2.2 = none) ∧
        (r.2.2 = none → ∃ out,
          (x.Get c.BaseClient (listInput userID query)).outcome = .ok out ∧
            r.2.1 = out.status)) ∧
      ((∃ out, (x.Get c.BaseClient (listInput userID query)).outcome = .ok out ∧
            (out.err = none → out.resp.isSome = true)) →
        ∃ r, (ChatClient.List x ext c userID query).outcome = .ok r)) :=
  ⟨fun chat => ⟨fun r h => Create_result x ext c chat r h, Create_returns x ext c chat⟩,
   fun id query => ⟨fun r h => Get_result x ext c id query r h, Get_returns x ext c id query⟩,
   fun userID query =>
    ⟨fun r h => List_result x ext c userID query r h, List_returns x ext c userID query⟩⟩

/-- Witness of C5: a 201 response whose body decodes to the chat, and a failing
executor: the entity is present in the first case and absent in the second. -/
theorem entity_present_iff_error_nil_witness :
    (ChatClient.Create (constExecutor (sampleSuccess 201)) (sampleExt sampleDoc) sampleClient
        sampleChat).outcome = .ok (some sampleChat, 201, none) ∧
    ((some sampleChat).isSome = true ↔ (none : Option Error) = none) ∧
    (ChatClient.Get (constExecutor sampleFailure) (sampleExt sampleDoc) sampleClient
        "19:a" Query.zero).outcome =
      .ok (none, 403, some "ChatsClient.BaseClient.Get(): forbidden") ∧
    ((none : Option SampleChat).isSome = true ↔
      some "ChatsClient.BaseClient.Get(): forbidden" = (none : Option Error)) :=
  have h := entity_present_iff_error_nil (constExecutor (sampleSuccess 201))
    (sampleExt sampleDoc) sampleClient
  have g := entity_present_iff_error_nil (constExecutor sampleFailure)
    (sampleExt sampleDoc) sampleClient
  ⟨rfl, ((h.1 sampleChat).1 (some sampleChat, 201, none) rfl).1, rfl,
    ((g.2.1 "19:a" Query.zero).1
      (none, 403, some "ChatsClient.BaseClient.Get(): forbidden") rfl).1⟩

/-- A body that is not valid JSON fails both decodings with the syntax error. -/
theorem unmarshal_syntax_error {Chat : Type} (ext : External Chat) (b : Bytes) (e : Error)
    (h : ext.scan b = .error e) :
    unmarshalChat ext b = .error e ∧ unmarshalChatList ext b = .error e := by
  simp [unmarshalChat, unmarshalChatList, h]

/-- C7: when the executor succeeds with status `s` (nil error, a response) but
the body cannot be read, or cannot be decoded into the expected shape, each of
`Create`, `Get` and `List` returns the status `s` of the executor, an error that
describes the read failure (`io.ReadAll(): ...`) or the decode failure
(`json.Unmarshal(): ...`), and no entity. -/
theorem decode_failure_keeps_status {Chat : Type} (x : Executor) (ext : External Chat)
    (c : ChatClient) (tr : List ExecEvent) (out : ExecutorOutcome) (resp : Response)
    (herr : out.err = none) (hresp : out.resp = some resp) :
    (∀ chat body, ext.marshal chat = .ok body →
      x.Post c.BaseClient (createInput ext body) = ⟨tr, .ok out⟩ →
      (∀ e, resp.Body = .error e →
        ChatClient.Create x ext c chat =
          ⟨[Event.post (createInput ext body) tr, Event.readAll, Event.close],
            .ok (none, out.status, some ("io.ReadAll(): " ++ e))⟩) ∧
      (∀ b e, resp.Body = .ok b → unmarshalChat ext b = .error e →
        ChatClient.Create x ext c chat =
          ⟨[Event.post (createInput ext body) tr, Event.readAll, Event.unmarshal, Event.close],
            .ok (none, out.status, some ("json.Unmarshal(): " ++ e))⟩)) ∧
    (∀ id query, x.Get c.BaseClient (getInput id query) = ⟨tr, .ok out⟩ →
      (∀ e, resp.Body = .error e →
        ChatClient.Get x ext c id query =
          ⟨[Event.get (getInput id query) tr, Event.readAll, Event.close],
            .ok (none, out.status, some ("io.ReadAll(): " ++ e))⟩) ∧
      (∀ b e, resp.Body = .ok b → unmarshalChat ext b = .error e →
        ChatClient.Get x ext c id query =
          ⟨[Event.get (getInput id query) tr, Event.readAll, Event.unmarshal, Event.close],
            .ok (none, out.status, some ("json.Unmarshal(): " ++ e))⟩)) ∧
    (∀ userID query, x.Get c.BaseClient (listInput userID query) = ⟨tr, .ok out⟩ →
      (∀ e, resp.Body = .error e →
        ChatClient.List x ext c userID query =
          ⟨[Event.get (listInput userID query) tr, Event.readAll, Event.close],
            .ok (none, out.status, some ("io.ReadAll(): " ++ e))⟩) ∧
      (∀ b e, resp.Body = .ok b → unmarshalChatList ext b = .error e →
        ChatClient.List x ext c userID query =
          ⟨[Event.get (listInput userID query) tr, Event.readAll, Event.unmarshal,
              Event.close],
            .ok (none, out.status, some ("json.Unmarshal(): " ++ e))⟩)) := by
  refine ⟨?_, ?_, ?_⟩
  · intro chat body hm hx
    constructor
    · intro e hb
      simp [ChatClient.Create, hm, callPost, hx, Run.andThen, Run.ret, Run.deref,
        Run.deferring, Run.emit, herr, hresp, hb]
    · intro b e hb hu
      simp [ChatClient.Create, hm, callPost, hx, Run.andThen, Run.ret, Run.deref,
        Run.deferring, Run.emit, herr, hresp, hb, hu]
  · intro id query hx
    constructor
    · intro e hb
      simp [ChatClient.Get, callGet, hx, Run.andThen, Run.ret, Run.deref,
        Run.deferring, Run.emit, herr, hresp, hb]
    · intro b e hb hu
      simp [ChatClient.Get, callGet, hx, Run.andThen, Run.ret, Run.deref,
        Run.deferring, Run.emit, herr, hresp, hb, hu]
  · intro userID query hx
    constructor
    · intro e hb
      simp [ChatClient.List, callGet, hx, Run.andThen, Run.ret, Run.deref,
        Run.deferring, Run.emit, herr, hresp, hb]
    · intro b e hb hu
      simp [ChatClient.List, callGet, hx, Run.andThen, Run.ret, Run.deref,
        Run.deferring, Run.emit, herr, hresp, hb, hu]

/-- Witness of C7: a 200 response whose body cannot be read (`Get`), and a 200
response whose body is the JSON number 5, which is no collection envelope
(`List`). -/
theorem decode_failure_keeps_status_witness :
    ChatClient.Get (constExecutor sampleUnreadable) (sampleExt sampleDoc) sampleClient
        "19:a" Query.zero =
      ⟨[Event.get (getInput "19:a" Query.zero) [], Event.readAll, Event.close],
        .ok (none, 200, some "io.ReadAll(): unexpected EOF")⟩ ∧
    ChatClient.List (constExecutor sampleReadable) (sampleExt (Json.number "5")) sampleClient
        "u1" Query.zero =
      ⟨[Event.get (listInput "u1" Query.zero) [], Event.readAll, Event.unmarshal, Event.close],
        .ok (none, 200,
          some "json.Unmarshal(): json: cannot unmarshal into Go value of type struct")⟩ :=
  ⟨((decode_failure_keeps_status (constExecutor sampleUnreadable) (sampleExt sampleDoc)
      sampleClient [] sampleUnreadable unreadableResponse rfl rfl).2.1
        "19:a" Query.zero rfl).1 "unexpected EOF" rfl,
   ((decode_failure_keeps_status (constExecutor sampleReadable) (sampleExt (Json.number "5"))
      sampleClient [] sampleReadable readableResponse rfl rfl).2.2
        "u1" Query.zero rfl).2 [53] "json: cannot unmarshal into Go value of type struct"
        rfl rfl⟩

/-- Number of executor calls made by `Create`: one if the chat serializes, else none. -/
theorem Create_calls {Chat : Type} (x : Executor) (ext : External Chat) (c : ChatClient)
    (chat : Chat) :
    executorCalls (ChatClient.Create x ext c chat).trace =
      match ext.marshal chat with
      | .ok _ => 1
      | .error _ => 0 := by
  unfold ChatClient.Create
  cases hm : ext.marshal chat with
  | error e => simp [Run.ret, executorCalls]
  | ok body =>
    rcases hx : x.Post c.BaseClient (createInput ext body) with ⟨tr, oc⟩
    rcases oc with p | ⟨resp, status, od, err⟩
    · simp [callPost, hx, Run.andThen, executorCalls, Event.isExecutorCall]
    · rcases err with _ | e <;> rcases resp with _ | ⟨code, rb⟩
      · simp [callPost, hx, Run.andThen, Run.deref, Run.panic, executorCalls,
          Event.isExecutorCall]
      · rcases rb with e | b
        · simp [callPost, hx, Run.andThen, Run.deref, Run.ret, Run.deferring, Run.emit,
            executorCalls, Event.isExecutorCall]
        · cases hu : unmarshalChat ext b <;>
            simp [callPost, hx, Run.andThen, Run.deref, Run.ret, Run.deferring, Run.emit, hu,
              executorCalls, Event.isExecutorCall]
      · simp [callPost, hx, Run.andThen, Run.ret, executorCalls, Event.isExecutorCall]
      · simp [callPost, hx, Run.andThen, Run.ret, executorCalls, Event.isExecutorCall]

/-- Number of executor calls made by `Get`: always one. -/
theorem Get_calls {Chat : Type} (x : Executor) (ext : External Chat) (c : ChatClient)
    (id : String) (query : Query) :
    executorCalls (ChatClient.Get x ext c id query).trace = 1 := by
  unfold ChatClient.Get
  rcases hx : x.Get c.BaseClient (getInput id query) with ⟨tr, oc⟩
  rcases oc with p | ⟨resp, status, od, err⟩
  · simp [callGet, hx, Run.andThen, executorCalls, Event.isExecutorCall]
  · rcases err with _ | e <;> rcases resp with _ | ⟨code, rb⟩
    · simp [callGet, hx, Run.andThen, Run.deref, Run.panic, executorCalls,
        Event.isExecutorCall]
    · rcases rb with e | b
      · simp [callGet, hx, Run.andThen, Run.deref, Run.ret, Run.deferring, Run.emit,
          executorCalls, Event.isExecutorCall]
      · cases hu : unmarshalChat ext b <;>
          simp [callGet, hx, Run.andThen, Run.deref, Run.ret, Run.deferring, Run.emit, hu,
            executorCalls, Event.isExecutorCall]
    · simp [callGet, hx, Run.andThen, Run.ret, executorCalls, Event.isExecutorCall]
    · simp [callGet, hx, Run.andThen, Run.ret, executorCalls, Event.isExecutorCall]

/-- Number of executor calls made by `List`: always one. -/
theorem List_calls {Chat : Type} (x : Executor) (ext : External Chat) (c : ChatClient)
    (userID : String) (query : Query) :
    executorCalls (ChatClient.List x ext c userID query).trace = 1 := by
  unfold ChatClient.List
  rcases hx : x.Get c.BaseClient (listInput userID query) with ⟨tr, oc⟩
  rcases oc with p | ⟨resp, status, od, err⟩
  · simp [callGet, hx, Run.andThen, executorCalls, Event.isExecutorCall]
  · rcases err with _ | e <;> rcases resp with _ | ⟨code, rb⟩
    · simp [callGet, hx, Run.andThen, Run.deref, Run.panic, executorCalls,
        Event.isExecutorCall]
    · rcases rb with e | b
      · simp [callGet, hx, Run.andThen, Run.deref, Run.ret, Run.deferring, Run.emit,
          executorCalls, Event.isExecutorCall]
      · cases hu : unmarshalChatList ext b <;>
          simp [callGet, hx, Run.andThen, Run.deref, Run.ret, Run.deferring, Run.emit, hu,
            executorCalls, Event.isExecutorCall]
    · simp [callGet, hx, Run.andThen, Run.ret, executorCalls, Event.isExecutorCall]
    · simp [callGet, hx, Run.andThen, Run.ret, executorCalls, Event.isExecutorCall]

/-- Number of executor calls made by `Update`: one if the chat serializes and
its ID is present, else none. -/
theorem Update_calls {Chat : Type} (x : Executor) (ext : External Chat) (c : ChatClient)
    (chat : Chat) :
    executorCalls (ChatClient.Update x ext c chat).trace =
      match ext.marshal chat, ext.ID chat with
      | .ok _, some _ => 1
      | _, _ => 0 := by
  unfold ChatClient.Update
  cases hm : ext.marshal chat with
  | error e => simp [Run.ret, executorCalls]
  | ok body =>
    cases hid : ext.ID chat with
    | none => simp [Run.andThen, Run.deref, Run.panic, executorCalls]
    | some id =>
      rcases hx : x.Patch c.BaseClient (updateInput body id) with ⟨tr, oc⟩
      rcases oc with p | ⟨resp, status, od, err⟩
      · simp [callPatch, hx, Run.andThen, Run.deref, Run.ret, executorCalls,
          Event.isExecutorCall]
      · rcases err with _ | e <;>
          simp [callPatch, hx, Run.andThen, Run.deref, Run.ret, executorCalls,
            Event.isExecutorCall]

/-- Number of executor calls made by `Delete`: always one. -/
theorem Delete_calls (x : Executor) (c : ChatClient) (chatId : String) :
    executorCalls (ChatClient.Delete x c chatId).trace = 1 := by
  unfold ChatClient.Delete
  rcases hx : x.Delete c.BaseClient (deleteInput chatId) with ⟨tr, oc⟩
  rcases oc with p | ⟨resp, status, od, err⟩
  · simp [callDelete, hx, Run.andThen, executorCalls, Event.isExecutorCall]
  · rcases err with _ | e <;>
      simp [callDelete, hx, Run.andThen, Run.ret, executorCalls, Event.isExecutorCall]

/-- C6, as the code has it: whatever the executor does, one call of a wrapper
invokes the executor at most once; `Get`, `List` and `Delete` invoke it exactly
once; `Create` invokes it exactly once when the chat serializes; `Update`
invokes it exactly once when the chat serializes and its ID is present; `Create`
and `Update` do not invoke it when serialization fails. -/
theorem executor_called_at_most_once {Chat : Type} (x : Executor) (ext : External Chat)
    (c : ChatClient) :
    (∀ chat, executorCalls (ChatClient.Create x ext c chat).trace ≤ 1 ∧
      (∀ body, ext.marshal chat = .ok body →
        executorCalls (ChatClient.Create x ext c chat).trace = 1) ∧
      (∀ e, ext.marshal chat = .error e →
        executorCalls (ChatClient.Create x ext c chat).trace = 0)) ∧
    (∀ id query, executorCalls (ChatClient.Get x ext c id query).trace = 1) ∧
    (∀ userID query, executorCalls (ChatClient.List x ext c userID query).trace = 1) ∧
    (∀ chat, executorCalls (ChatClient.Update x ext c chat).trace ≤ 1 ∧
      (∀ body id, ext.marshal chat = .ok body → ext.ID chat = some id →
        executorCalls (ChatClient.Update x ext c chat).trace = 1) ∧
      (∀ e, ext.marshal chat = .error e →
        executorCalls (ChatClient.Update x ext c chat).trace = 0)) ∧
    (∀ chatId, executorCalls (ChatClient.Delete x c chatId).trace = 1) := by
  refine ⟨fun chat => ?_, Get_calls x ext c, List_calls x ext c, fun chat => ?_,
    Delete_calls x c⟩
  · rw [Create_calls]
    refine ⟨?_, ?_, ?_⟩
    · split <;> simp
    · intro body hm
      simp [hm]
    · intro e hm
      simp [hm]
  · rw [Update_calls]
    refine ⟨?_, ?_, ?_⟩
    · split <;> simp
    · intro body id hm hid
      simp [hm, hid]
    · intro e hm
      simp [hm]

/-- Witness of C6: a chat that serializes and has an ID, sent through `Create`
and through `Update`. -/
theorem executor_called_at_most_once_witness :
    executorCalls (ChatClient.Create (constExecutor (sampleSuccess 201)) (sampleExt sampleDoc)
      sampleClient sampleChat).trace = 1 ∧
    executorCalls (ChatClient.Update (constExecutor (sampleSuccess 204)) (sampleExt sampleDoc)
      sampleClient sampleChat).trace = 1 :=
  ⟨((executor_called_at_most_once (constExecutor (sampleSuccess 201)) (sampleExt sampleDoc)
      sampleClient).1 sampleChat).2.1 [123, 125] rfl,
   ((executor_called_at_most_once (constExecutor (sampleSuccess 204)) (sampleExt sampleDoc)
      sampleClient).2.2.2.1 sampleChat).2.1 [123, 125] "19:a" rfl rfl⟩

/-- Counterexample to C6 as stated: the chat without ID serializes, yet `Update`
does not invoke the executor (it panics on `*chat.ID` before the call). -/
theorem Update_serialized_not_called :
    (sampleExt sampleDoc).marshal chatWithoutID = .ok [123, 125] ∧
    executorCalls (ChatClient.Update (constExecutor (sampleSuccess 204)) (sampleExt sampleDoc)
      sampleClient chatWithoutID).trace = 0 ∧
    (ChatClient.Update (constExecutor (sampleSuccess 204)) (sampleExt sampleDoc)
      sampleClient chatWithoutID).outcome = .error Panic.nilDereference :=
  ⟨rfl, rfl, rfl⟩

/-- C10: with an executor that does not panic, `Update` returns a result for
every chat whose ID is present and, when the chat serializes, its only event is
one `Patch` call with path `"/chats/" ++ id`, accepted statuses `[204]` and the
serialized chat as body. `Update` panics (nil dereference, no result) exactly
when the ID is absent and serialization succeeded, and then before any executor
call. -/
theorem Update_requires_ID {Chat : Type} (x : Executor) (ext : External Chat) (c : ChatClient)
    (hx : ∀ input, ∃ out, (x.Patch c.BaseClient input).outcome = .ok out) :
    (∀ chat id, ext.ID chat = some id →
      (∃ r, (ChatClient.Update x ext c chat).outcome = .ok r) ∧
      (∀ body, ext.marshal chat = .ok body →
        (ChatClient.Update x ext c chat).trace =
          [Event.patch (updateInput body id) (x.Patch c.BaseClient (updateInput body id)).trace] ∧
        (updateInput body id).Uri.Entity = "/chats/" ++ id ∧
        (updateInput body id).ValidStatusCodes = [204] ∧
        (updateInput body id).Body = body)) ∧
    (∀ chat, (ChatClient.Update x ext c chat).outcome = .error Panic.nilDereference ↔
      (ext.ID chat = none ∧ ∃ body, ext.marshal chat = .ok body)) ∧
    (∀ chat body, ext.ID chat = none → ext.marshal chat = .ok body →
      ChatClient.Update x ext c chat = ⟨[], .error Panic.nilDereference⟩) := by
  refine ⟨?_, ?_, ?_⟩
  · intro chat id hid
    constructor
    · unfold ChatClient.Update
      cases hm : ext.marshal chat with
      | error e => simp [Run.ret]
      | ok body =>
        obtain ⟨out, ho⟩ := hx (updateInput body id)
        rcases out with ⟨resp, status, od, err⟩
        rcases err with _ | e <;>
          simp [hid, callPatch, ho, Run.andThen, Run.deref, Run.ret]
    · intro body hm
      refine ⟨?_, rfl, rfl, rfl⟩
      obtain ⟨out, ho⟩ := hx (updateInput body id)
      rcases out with ⟨resp, status, od, err⟩
      rcases err with _ | e <;>
        simp [ChatClient.Update, hm, hid, callPatch, ho, Run.andThen, Run.deref, Run.ret]
  · intro chat
    unfold ChatClient.Update
    cases hm : ext.marshal chat with
    | error e => simp [Run.ret]
    | ok body =>
      cases hid : ext.ID chat with
      | none => simp [Run.andThen, Run.deref, Run.panic]
      | some id =>
        obtain ⟨out, ho⟩ := hx (updateInput body id)
        rcases out with ⟨resp, status, od, err⟩
        rcases err with _ | e <;>
          simp [callPatch, ho, Run.andThen, Run.deref, Run.ret]
  · intro chat body hid hm
    simp [ChatClient.Update, hm, hid, Run.andThen, Run.deref, Run.panic]

/-- Witness of C10: the executor that always answers 204 never panics; the chat
with ID `19:a` is patched at `/chats/19:a`. -/
theorem Update_requires_ID_witness :
    (∀ input, ∃ out,
      ((constExecutor (sampleSuccess 204)).Patch sampleClient.BaseClient input).outcome =
        .ok out) ∧
    (ChatClient.Update (constExecutor (sampleSuccess 204)) (sampleExt sampleDoc) sampleClient
      sampleChat).trace = [Event.patch (updateInput [123, 125] "19:a") []] ∧
    ChatClient.Update (constExecutor (sampleSuccess 204)) (sampleExt sampleDoc) sampleClient
      chatWithoutID = ⟨[], .error Panic.nilDereference⟩ :=
  have hx : ∀ input, ∃ out,
      ((constExecutor (sampleSuccess 204)).Patch sampleClient.BaseClient input).outcome =
        .ok out := fun _ => ⟨sampleSuccess 204, rfl⟩
  have h := Update_requires_ID (constExecutor (sampleSuccess 204)) (sampleExt sampleDoc)
    sampleClient hx
  ⟨hx, ((h.1 sampleChat "19:a" rfl).2 [123, 125] rfl).1, h.2.2 chatWithoutID [123, 125] rfl rfl⟩

/-- With retries disabled the executor of the specification makes one attempt
on a response on which the predicate of `Get` fires, whatever the budget. -/
theorem attemptLoop_disabled (c : Client) (t : Transport) (d : RequestDescriptor)
    (budget n : Nat) (r : Response) (o : Option OData)
    (hd : c.DisableRetries = true) (ht : t n = .received r o)
    (hp : d.predicate = some RetryOn404ConsistencyFailureFunc) :
    attemptLoop c t d budget n = ⟨[ExecEvent.send n], .ok (terminalOutcome d r o)⟩ := by
  cases budget <;>
    simp [attemptLoop, ht, hd, hp, predicateFires, RetryOn404ConsistencyFailureFunc,
      Run.andThen, Run.ret, Run.emit]

/-- C4: on a client with `DisableRetries = true`, a `Get` whose first response
is a 404 (on which the retry-on-404 predicate fires) is attempted exactly once,
whatever the transport would answer next: the only attempt is number 0 and the
call returns status 404, a non-nil error and no entity. The flag is a field of
the client: setting it back to false changes nothing else. -/
theorem Get_disabled_retries_single_attempt {Chat : Type} (ext : External Chat) (c : Client)
    (t : Transport) (id : String) (query : Query) (r : Response) (o : Option OData)
    (hd : c.DisableRetries = true) (ht : t 0 = .received r o)
    (hs : r.StatusCode = StatusNotFound) :
    ChatClient.Get (specExecutor t) ext { BaseClient := c } id query =
      ⟨[Event.get (getInput id query) [ExecEvent.send 0]],
        .ok (none, 404,
          some ("ChatsClient.BaseClient.Get(): " ++
            ("unexpected status " ++ toString StatusNotFound)))⟩ ∧
    RetryOn404ConsistencyFailureFunc (some r) o = ⟨[], .ok true⟩ ∧
    ({ c with DisableRetries := false }).DisableRetries = false ∧
    ({ c with DisableRetries := false }).MaxAttempts = c.MaxAttempts := by
  refine ⟨?_, ?_, rfl, rfl⟩
  · have hx : (specExecutor t).Get c (getInput id query) =
        ⟨[ExecEvent.send 0], .ok
          { resp := some r, status := 404, odata := o,
            err := some ("unexpected status " ++ toString StatusNotFound) }⟩ := by
      have h := attemptLoop_disabled c t
        { path := (getInput id query).Uri.Entity, body := none,
          query := (getInput id query).OData,
          accepted := (getInput id query).ValidStatusCodes,
          predicate := (getInput id query).ConsistencyFailureFunc }
        (c.MaxAttempts - 1) 0 r o hd ht rfl
      have hterm : terminalOutcome
          { path := (getInput id query).Uri.Entity, body := none,
            query := (getInput id query).OData,
            accepted := (getInput id query).ValidStatusCodes,
            predicate := (getInput id query).ConsistencyFailureFunc } r o =
          { resp := some r, status := 404, odata := o,
            err := some ("unexpected status " ++ toString StatusNotFound) } := by
        simp [terminalOutcome, getInput, hs, StatusOK, StatusNotFound]
      rw [hterm] at h
      exact h
    simp [ChatClient.Get, callGet, hx, Run.andThen, Run.ret]
  · simp [RetryOn404ConsistencyFailureFunc, Run.ret, hs]

/-- Witness of C4: a transport that always answers 404, a client with retries
disabled and four attempts allowed. -/
theorem Get_disabled_retries_single_attempt_witness :
    ChatClient.Get (specExecutor alwaysNotFound) (sampleExt sampleDoc)
        { BaseClient := retriesDisabled } "19:a" Query.zero =
      ⟨[Event.get (getInput "19:a" Query.zero) [ExecEvent.send 0]],
        .ok (none, 404,
          some ("ChatsClient.BaseClient.Get(): " ++
            ("unexpected status " ++ toString StatusNotFound)))⟩ :=
  (Get_disabled_retries_single_attempt (sampleExt sampleDoc) retriesDisabled alwaysNotFound
    "19:a" Query.zero { StatusCode := 404, Body := .ok [] } none rfl rfl rfl).1

/-- With retries enabled the same transport is retried until the attempts are
exhausted: the single attempt of C4 is due to the flag. -/
theorem Get_enabled_retries_example :
    (ChatClient.Get (specExecutor alwaysNotFound) (sampleExt sampleDoc)
        { BaseClient := { retriesDisabled with DisableRetries := false } }
        "19:a" Query.zero).trace =
      [Event.get (getInput "19:a" Query.zero)
        [ExecEvent.send 0, ExecEvent.send 1, ExecEvent.send 2, ExecEvent.send 3]] := by
  rfl

/-- Members whose keys do not match the tag leave the destination untouched. -/
theorem decodeMembers_skip {Chat : Type} (ext : External Chat) (ms : List (String × Json))
    (acc : List Chat) (h : ∀ p ∈ ms, matchesValueTag p.1 = false) :
    decodeMembers ext ms acc = .ok acc := by
  induction ms generalizing acc with
  | nil => rfl
  | cons p rest ih =>
    obtain ⟨k, v⟩ := p
    have hk : matchesValueTag k = false := h (k, v) (List.mem_cons_self _ _)
    have hrest : ∀ q ∈ rest, matchesValueTag q.1 = false :=
      fun q hq => h q (List.mem_cons_of_mem _ hq)
    simp [decodeMembers, hk, ih acc hrest]

/-- An object with exactly one member matching the tag decodes to what that
member decodes to, wherever the member stands. -/
theorem decodeMembers_single {Chat : Type} (ext : External Chat)
    (pre post : List (String × Json)) (k : String) (v : Json) (acc cs : List Chat)
    (hk : matchesValueTag k = true)
    (hpre : ∀ p ∈ pre, matchesValueTag p.1 = false)
    (hpost : ∀ p ∈ post, matchesValueTag p.1 = false)
    (hv : decodeValueField ext v = .ok cs) :
    decodeMembers ext (pre ++ (k, v) :: post) acc = .ok cs := by
  induction pre generalizing acc with
  | nil => simp [decodeMembers, hk, hv, decodeMembers_skip ext post cs hpost]
  | cons p rest ih =>
    obtain ⟨k0, v0⟩ := p
    have hk0 : matchesValueTag k0 = false := hpre (k0, v0) (List.mem_cons_self _ _)
    have hrest : ∀ q ∈ rest, matchesValueTag q.1 = false :=
      fun q hq => hpre q (List.mem_cons_of_mem _ hq)
    simp [decodeMembers, hk0, ih acc hrest]

/-- Element-wise decoding: the result lists, in order, the chat of each element. -/
theorem decodeElems_of_forall₂ {Chat : Type} (ext : External Chat) (elems : List Json)
    (chats : List Chat)
    (h : List.Forall₂ (fun j ch => ext.decodeChat j = .ok ch) elems chats) :
    decodeElems ext elems = .ok chats := by
  induction h with
  | nil => rfl
  | cons hj _ ih => simp [decodeElems, hj, ih]

/-- C9, as the code has it: when the executor succeeds and the body is a JSON
object, `List` returns exactly the chats decoded from the elements of the array
held by the only member whose name is `value` up to letter case, in the same
order and number, whatever the other members are; when no member name is
`value` up to letter case, `List` returns a non-nil, empty collection and no
error. -/
theorem List_unwraps_envelope {Chat : Type} (x : Executor) (ext : External Chat)
    (c : ChatClient) (userID : String) (query : Query) (tr : List ExecEvent)
    (out : ExecutorOutcome) (resp : Response) (body : Bytes) (members : List (String × Json))
    (hx : x.Get c.BaseClient (listInput userID query) = ⟨tr, .ok out⟩)
    (herr : out.err = none) (hresp : out.resp = some resp) (hb : resp.Body = .ok body)
    (hs : ext.scan body = .ok (.object members)) :
    (∀ pre k elems post chats, members = pre ++ (k, Json.array elems) :: post →
      matchesValueTag k = true →
      (∀ p ∈ pre ++ post, matchesValueTag p.1 = false) →
      List.Forall₂ (fun j ch => ext.decodeChat j = .ok ch) elems chats →
      ChatClient.List x ext c userID query =
        ⟨[Event.get (listInput userID query) tr, Event.readAll, Event.unmarshal, Event.close],
          .ok (some chats, out.status, none)⟩ ∧
      chats.length = elems.length) ∧
    ((∀ p ∈ members, matchesValueTag p.1 = false) →
      ChatClient.List x ext c userID query =
        ⟨[Event.get (listInput userID query) tr, Event.readAll, Event.unmarshal, Event.close],
          .ok (some [], out.status, none)⟩) := by
  constructor
  · intro pre k elems post chats hm hk hothers hdec
    have hpre : ∀ p ∈ pre, matchesValueTag p.1 = false :=
      fun p hp => hothers p (List.mem_append_left _ hp)
    have hpost : ∀ p ∈ post, matchesValueTag p.1 = false :=
      fun p hp => hothers p (List.mem_append_right _ hp)
    have hv : decodeValueField ext (Json.array elems) = .ok chats := by
      simp [decodeValueField, decodeElems_of_forall₂ ext elems chats hdec]
    have hu : unmarshalChatList ext body = .ok chats := by
      simp [unmarshalChatList, hs, hm,
        decodeMembers_single ext pre post k (Json.array elems) [] chats hk hpre hpost hv]
    refine ⟨?_, hdec.length_eq.symm⟩
    simp [ChatClient.List, callGet, hx, Run.andThen, Run.ret, Run.deref, Run.deferring,
      Run.emit, herr, hresp, hb, hu]
  · intro hnone
    have hu : unmarshalChatList ext body = .ok [] := by
      simp [unmarshalChatList, hs, decodeMembers_skip ext members [] hnone]
    simp [ChatClient.List, callGet, hx, Run.andThen, Run.ret, Run.deref, Run.deferring,
      Run.emit, herr, hresp, hb, hu]

/-- Witness of C9: an envelope with an OData context and two elements under
`value`, the second being `null`. -/
theorem List_unwraps_envelope_witness :
    ChatClient.List (constExecutor sampleReadable) (sampleExt (Json.object envelopeMembers))
        sampleClient "u1" Query.zero =
      ⟨[Event.get (listInput "u1" Query.zero) [], Event.readAll, Event.unmarshal, Event.close],
        .ok (some [sampleChat, { ID := none, Topic := none }], 200, none)⟩ :=
  ((List_unwraps_envelope (constExecutor sampleReadable)
      (sampleExt (Json.object envelopeMembers)) sampleClient "u1" Query.zero []
      sampleReadable readableResponse [53] envelopeMembers rfl rfl rfl rfl rfl).1
    [("@odata.context", .string "https://graph.microsoft.com/v1.0/$metadata#chats")]
    "value" [sampleDoc, .null] [] [sampleChat, { ID := none, Topic := none }] rfl (by decide)
    (by decide) (List.Forall₂.cons rfl (List.Forall₂.cons rfl List.Forall₂.nil))).1

/-- Counterexample to C9 as stated: the envelope has no member named `value`
(its only member is named `VALUE`), yet `List` returns the chat held under
`VALUE` instead of an empty collection. -/
theorem List_value_tag_ignores_case :
    lookupMember "value" upperCaseMembers = none ∧
    (ChatClient.List (constExecutor sampleReadable) (sampleExt (Json.object upperCaseMembers))
      sampleClient "u1" Query.zero).outcome = .ok (some [sampleChat], 200, none) ∧
    (ChatClient.List (constExecutor sampleReadable) (sampleExt (Json.object upperCaseMembers))
      sampleClient "u1" Query.zero).outcome ≠ .ok (some [], 200, none) := by
  refine ⟨rfl, rfl, ?_⟩
  intro h
  have h2 : (ChatClient.List (constExecutor sampleReadable)
      (sampleExt (Json.object upperCaseMembers)) sampleClient "u1" Query.zero).outcome =
      .ok (some [sampleChat], 200, none) := rfl
  rw [h2] at h
  simp at h

/-- When the executor hands back the request body as the response body,
`Create` returns what `json.Unmarshal` makes of the bytes `json.Marshal`
produced: the round trip through `Create` is the round trip of the codec of
`Chat`, which lives outside chat.go. -/
theorem Create_echo {Chat : Type} (x : Executor) (ext : External Chat) (c : ChatClient)
    (chat : Chat) (body : Bytes) (tr : List ExecEvent) (code status : Int)
    (od : Option OData) (hm : ext.marshal chat = .ok body)
    (hx : x.Post c.BaseClient (createInput ext body) =
      ⟨tr, .ok { resp := some { StatusCode := code, Body := .ok body }, status := status,
                 odata := od, err := none }⟩) :
    (ChatClient.Create x ext c chat).outcome =
      .ok (match unmarshalChat ext body with
        | .ok decoded => (some decoded, status, none)
        | .error e => (none, status, some ("json.Unmarshal(): " ++ e))) := by
  cases hu : unmarshalChat ext body <;>
    simp [ChatClient.Create, hm, callPost, hx, Run.andThen, Run.ret, Run.deref,
      Run.deferring, Run.emit, hu]

end msgraph
